import Mathlib

/-
Verification of the Rin observation pipeline core against its design
specification.

The development shallowly embeds three backend modules:

* `semantic_layer.py` — title parsing, local audio/visual classification and
  feature extraction (`SemanticLayer.extract_features`);
* `fog_layer.py` — episodic aggregation (`FogLayer.add_observation`,
  `force_close_current`, `get_pending_episodes`);
* `knowledge_gate.py` — the gate decision procedure (`KnowledgeGate.check`,
  `_assess_urgency`), together with the knowledge resolver
  `database.lookup_app_in_kb` at the granularity of its interface.

Modelling conventions, used throughout:

* Python floats are embedded as exact rationals.  Where the source compares a
  square root (an RMS volume or a standard deviation) against a constant, the
  embedding compares the square against the squared constant; both sides of
  each comparison are nonnegative, so the comparison is preserved exactly.
* Python `None` becomes `none`; truthiness of an optional string/dict/bytes
  value (`if x:`) is embedded by explicit `…Truthy` helpers (empty string,
  empty dict and empty bytes are falsy, a dataclass instance is always
  truthy).
* Wall-clock reads (`time.time()`) are passed in as an explicit `now`
  argument of the operation being modelled.
* Code paths that raise in Python are embedded in `Except RinError`.
-/

set_option autoImplicit false

/-- Errors that the embedded code can raise.  `dbError` stands for an
exception escaping the sqlite query inside `database.lookup_app_in_kb`;
`indexError` stands for the `IndexError` raised by `last_part[0]` in
`TitleParser._extract_app_name` when the trailing title segment is empty. -/
inductive RinError where
  | dbError
  | indexError
deriving DecidableEq, Repr

/-- Contiguous-sublist test on character lists (the empty needle matches
everywhere). -/
def listIsInfix (needle : List Char) : List Char → Bool
  | [] => needle.isEmpty
  | c :: rest => needle.isPrefixOf (c :: rest) || listIsInfix needle rest

/-- Python `needle in hay` on strings: contiguous substring test (the empty
needle matches every haystack, as in Python). -/
def containsSub (hay needle : String) : Bool :=
  listIsInfix needle.toList hay.toList

/-- Python `str.lower()` for the ASCII strings handled here (defined over
the character list so that concrete titles evaluate). -/
def lowerStr (s : String) : String := String.mk (s.toList.map Char.toLower)

/-- Python `str.strip()`: drop whitespace from both ends. -/
def trimStr (s : String) : String :=
  String.mk (((s.toList.dropWhile Char.isWhitespace).reverse.dropWhile
    Char.isWhitespace).reverse)

/-- Python `str.startswith(pre)`. -/
def strStartsWith (s pre : String) : Bool := pre.toList.isPrefixOf s.toList

/-- Python `title.split(" - ")` on the character list: split at every
occurrence of the three-character separator, left to right,
non-overlapping. -/
def splitDashAux (cur : List Char) : List Char → List (List Char)
  | [] => [cur]
  | ' ' :: '-' :: ' ' :: rest => cur :: splitDashAux [] rest
  | c :: rest => splitDashAux (cur ++ [c]) rest

/-- Python `title.split(" - ")`. -/
def splitDash (s : String) : List String :=
  (splitDashAux [] s.toList).map String.mk

/-- Truthiness of an `Optional[str]`: `None` and `""` are falsy. -/
def optStrTruthy : Option String → Bool
  | none => false
  | some s => !s.isEmpty

/-- Truthiness of an `Optional[bytes]`: `None` and `b""` are falsy. -/
def optBytesTruthy : Option (List ℕ) → Bool
  | none => false
  | some b => !b.isEmpty

/-! ### Semantic layer: data model (`semantic_layer.py`) -/

/-- `ParsedTitle` from `semantic_layer.py`. -/
structure ParsedTitle where
  rawTitle : String
  appName : Option String := none
  fileName : Option String := none
  fileExt : Option String := none
  projectName : Option String := none
  urlDomain : Option String := none
  platform : Option String := none
  contentTitle : Option String := none
deriving DecidableEq, Repr

/-- `AudioFeatures` from `semantic_layer.py`.  The source field `has_audio` is
embedded as `hasSound` (a naming constraint of this development), and
`volume_level` is embedded by its square `volumeSq` (see the file header).
The source also stores `volume_delta`, the difference of two RMS values; it is
written by the analyzer but read nowhere in the repository, and a difference
of square roots has no exact rational form, so the field is omitted here
together with the analyzer rolling volume history that only feeds it. -/
structure AudioFeatures where
  hasSound : Bool := false
  isSilent : Bool := true
  volumeSq : ℚ := 0
  isMusicLike : Bool := false
  isSpeechLike : Bool := false
deriving DecidableEq, Repr

/-- `VisualFeatures` from `semantic_layer.py`.  `dominant_change_region` is
never assigned by the source; the field is kept with its default. -/
structure VisualFeatures where
  isStable : Bool := true
  isVideoPlaying : Bool := false
  changePercentage : ℚ := 0
  dominantRegion : Option String := none
deriving DecidableEq, Repr

/-- `ContextFeatures` from `semantic_layer.py` (field `audio` is embedded as
`audioFeats`, a naming constraint of this development). -/
structure ContextFeatures where
  title : ParsedTitle
  audioFeats : AudioFeatures
  visual : VisualFeatures
  timestamp : ℚ := 0
  activityType : Option String := none
  isPassive : Bool := false
  isFocused : Bool := false
deriving DecidableEq, Repr

/-! ### Semantic layer: title parsing -/

/-- The keys of `TitleParser.FILE_EXTENSIONS` (the language names that the
dict maps to are read nowhere in the source). -/
def fileExtensions : List String :=
  [".py", ".js", ".ts", ".tsx", ".jsx", ".html", ".css", ".json", ".md",
   ".cpp", ".c", ".rs", ".go", ".java"]

/-- `TitleParser.URL_DOMAINS`, in source (insertion) order. -/
def urlDomains : List (String × String) :=
  [("youtube", "YouTube"), ("github", "GitHub"),
   ("stackoverflow", "Stack Overflow"), ("reddit", "Reddit"),
   ("twitter", "Twitter"), ("twitch", "Twitch"), ("discord", "Discord")]

/-- Python regex `\w` on the ASCII titles handled here: letters, digits and
underscore. -/
def isWordChar (c : Char) : Bool := c.isAlphanum || c == '_'

/-- One attempt of `re.search(r'(\w+\.(\w+))', title)` at the current
position: a maximal nonempty run of word characters, a literal dot, then a
maximal nonempty run of word characters.  (Backtracking inside `\w+` can
never succeed because `.` is not a word character, so the greedy run is the
only candidate.)  Returns (group 1, group 2). -/
def fileSearchAt (l : List Char) : Option (List Char × List Char) :=
  match l with
  | [] => none
  | c :: _ =>
    if isWordChar c then
      let run1 := l.takeWhile isWordChar
      let rest1 := l.dropWhile isWordChar
      match rest1 with
      | '.' :: r2 =>
        let run2 := r2.takeWhile isWordChar
        if run2.isEmpty then none else some (run1 ++ '.' :: run2, run2)
      | _ => none
    else none

/-- `re.search(r'(\w+\.(\w+))', title)`: try every start position left to
right, returning the leftmost match. -/
def fileSearch : List Char → Option (List Char × List Char)
  | [] => none
  | c :: rest =>
    match fileSearchAt (c :: rest) with
    | some r => some r
    | none => fileSearch rest

/-- The literal `" - "` separator of the VS Code title pattern. -/
def sepChars : List Char := [' ', '-', ' ']

/-- The literal `" - Visual Studio Code"` tail of the VS Code title
pattern. -/
def vsTail : List Char := " - Visual Studio Code".toList

/-- The inner lazy group of `^(.+?) - (.+?) - Visual Studio Code`: grow
group 2 one character at a time and stop as soon as the remaining input
starts with `" - Visual Studio Code"`. -/
def vscodeInner (acc : List Char) : List Char → Option (List Char)
  | [] => none
  | c :: rest =>
    if vsTail.isPrefixOf rest then some (acc ++ [c])
    else vscodeInner (acc ++ [c]) rest

/-- The outer lazy group of `^(.+?) - (.+?) - Visual Studio Code`: grow
group 1 one character at a time; at each position where `" - "` follows, try
the inner group on the remainder, extending group 1 on failure (regex
backtracking). -/
def vscodeOuter (acc : List Char) : List Char → Option (List Char × List Char)
  | [] => none
  | c :: rest =>
    if sepChars.isPrefixOf rest then
      match vscodeInner [] (rest.drop 3) with
      | some g2 => some (acc ++ [c], g2)
      | none => vscodeOuter (acc ++ [c]) rest
    else vscodeOuter (acc ++ [c]) rest

/-- `re.search(r'^(.+?) - (.+?) - Visual Studio Code', title)` as used at the
end of `TitleParser.parse` (the pattern is anchored at the start and not at
the end). -/
def vscodeSearch (t : String) : Option (String × String) :=
  (vscodeOuter [] t.toList).map (fun g => (String.mk g.1, String.mk g.2))

/-- `TitleParser._extract_app_name`.  Mirrors the source exactly, including
the `IndexError` raised by `last_part[0]` when the segment after the last
`" - "` strips to the empty string (the length guard `len < 30` passes and
the indexing then fails). -/
def extractAppName (title : String) : Except RinError (Option String) :=
  if containsSub title " - " then
    let parts := splitDash title
    let lastPart := trimStr (parts.getLastD "")
    if lastPart.length < 30 then
      match lastPart.toList with
      | [] => .error .indexError
      | c0 :: _ => .ok (if c0.isUpper then some lastPart else none)
    else .ok none
  else .ok none

/-- `TitleParser.parse`.  The class attribute `PATTERNS` of the source is dead
code (never read by `parse`) and is not embedded. -/
def parseTitle (title appName : String) : Except RinError ParsedTitle :=
  let base : ParsedTitle := { rawTitle := title }
  if title.isEmpty then .ok base
  else
    let titleLower := lowerStr title
    match (if appName.isEmpty then extractAppName title else .ok (some appName)) with
    | .error e => .error e
    | .ok appN =>
      let r1 := { base with appName := appN }
      let r2 :=
        match fileSearch title.toList with
        | some g =>
          let ext := "." ++ lowerStr (String.mk g.2)
          { r1 with
            fileName := some (String.mk g.1),
            fileExt := if ext ∈ fileExtensions then some ext else none }
        | none => r1
      let r3 :=
        match urlDomains.find? (fun p => containsSub titleLower p.1) with
        | some p => { r2 with platform := some p.2, urlDomain := some p.1 }
        | none => r2
      let r4 :=
        if containsSub title " - " then
          let parts := splitDash title
          if 2 ≤ parts.length then { r3 with contentTitle := some (trimStr (parts.headD "")) }
          else r3
        else r3
      let r5 :=
        if containsSub titleLower "visual studio code" then
          match vscodeSearch title with
          | some g => { r4 with fileName := some g.1, projectName := some g.2 }
          | none => r4
        else r4
      .ok r5

/-! ### Semantic layer: audio and visual analyzers -/

/-- `AudioAnalyzer.analyze`.  The input is the list of signed 16-bit samples
decoded by `np.frombuffer(…, dtype=np.int16)`; the byte-length guard of the
source (`len(audio_bytes) < 100`) therefore reads `2 * samples.length < 100`.
`freqClassify` stands for `AudioAnalyzer._analyze_frequency` (a floating
point FFT, external to this embedding); it is only consulted on the exact
condition of the source.  `volumeSq` is the square of the source
`volume_level = min(1.0, rms * 10)`; since `min(1, 10·r)² = min(1, 100·r²)`
for `r ≥ 0`, and both thresholds are positive, the source comparisons
`volume_level > 0.01` and `volume_level < 0.02` are exactly the comparisons
of `volumeSq` with `1/10000` and `1/2500`. -/
def audioAnalyze (freqClassify : List ℤ → Bool × Bool) :
    Option (List ℤ) → AudioFeatures
  | none => {}
  | some samples =>
    if 2 * samples.length < 100 then {}
    else if samples.length = 0 then {}
    else
      let meanSq : ℚ :=
        ((samples.map (fun v : ℤ => ((v : ℚ) / 32768) ^ 2)).sum) / samples.length
      let volSq : ℚ := min 1 (100 * meanSq)
      let hasA : Bool := decide ((1 : ℚ) / 10000 < volSq)
      let sil : Bool := decide (volSq < (1 : ℚ) / 2500)
      let fr : Bool × Bool :=
        if 1024 ≤ samples.length ∧ hasA then freqClassify samples
        else (false, false)
      { hasSound := hasA, isSilent := sil, volumeSq := volSq,
        isMusicLike := fr.1, isSpeechLike := fr.2 }

/-- The rolling state of `VisualAnalyzer` (`change_history`, capped at
`history_max = 20`). -/
structure VisualState where
  changeHistory : List ℚ := []
deriving DecidableEq, Repr

/-- `VisualAnalyzer.analyze`.  `np.std` of the last five samples is compared
with `15.0` in the source; the embedding compares the (exactly computed)
population variance with `225`, which is the same comparison since both sides
are nonnegative. -/
def visualAnalyze (st : VisualState) (diff : ℚ) : VisualFeatures × VisualState :=
  let hist1 := st.changeHistory ++ [diff]
  let hist := if 20 < hist1.length then hist1.drop 1 else hist1
  let stable := decide (diff < 2)
  let video :=
    if 5 ≤ hist.length then
      let recent := hist.drop (hist.length - 5)
      let avg := recent.sum / 5
      let varc := ((recent.map (fun x => (x - avg) ^ 2)).sum) / 5
      decide (3 < avg) && decide (varc < 225)
    else false
  ({ isStable := stable, isVideoPlaying := video, changePercentage := diff },
   { changeHistory := hist })

/-! ### Semantic layer: activity classification and feature extraction -/

/-- `SemanticLayer._classify_activity`, the fixed-precedence decision list. -/
def classifyActivity (pt : ParsedTitle) (af : AudioFeatures) (vf : VisualFeatures)
    (hasKb hasMouse : Bool) : String :=
  if optStrTruthy pt.fileExt &&
      (match pt.fileExt with | some e => decide (e ∈ fileExtensions) | none => false) then
    "coding"
  else if pt.platform == some "YouTube" || pt.platform == some "Twitch" ||
      pt.platform == some "Netflix" then "media"
  else if vf.isVideoPlaying && af.isMusicLike then "media"
  else if pt.platform == some "Spotify" || (af.isMusicLike && !vf.isVideoPlaying) then
    "music"
  else if pt.platform == some "Discord" || pt.platform == some "Slack" ||
      pt.appName == some "Discord" || pt.appName == some "Slack" then "communication"
  else if pt.platform == some "GitHub" || pt.platform == some "Stack Overflow" then
    "research"
  else if optStrTruthy pt.urlDomain && hasMouse && !hasKb then "browsing"
  else if vf.isVideoPlaying && af.hasSound && !hasKb then "gaming"
  else "general"

/-- `SemanticLayer.extract_features`.  The analyzer rolling state that the
claims can observe is the visual history, threaded explicitly; `now` stands
for the `time.time()` read.  A `parse` failure propagates (the source wraps
nothing in try/except here). -/
def extractFeatures (freqClassify : List ℤ → Bool × Bool) (vst : VisualState)
    (now : ℚ) (title appName : String) (audioBytes : Option (List ℤ))
    (visualDiff : ℚ) (hasKb hasMouse : Bool) :
    Except RinError (ContextFeatures × VisualState) :=
  match parseTitle title appName with
  | .error e => .error e
  | .ok pt =>
    let af := audioAnalyze freqClassify audioBytes
    let vr := visualAnalyze vst visualDiff
    let act := classifyActivity pt af vr.1 hasKb hasMouse
    let passive := vr.1.isVideoPlaying || (af.isMusicLike && !hasKb) ||
      (pt.platform == some "YouTube" || pt.platform == some "Twitch" ||
       pt.platform == some "Netflix")
    let focused := hasKb && !af.hasSound && vr.1.isStable &&
      (match pt.fileExt with | some e => decide (e ∈ fileExtensions) | none => false)
    .ok ({ title := pt, audioFeats := af, visual := vr.1, timestamp := now,
           activityType := some act, isPassive := passive, isFocused := focused },
         vr.2)

/-! ### Fog layer: data model (`fog_layer.py`) -/

/-- `EpisodeState` from `fog_layer.py`. -/
inductive EpisodeState where
  | active
  | closed
  | processed
deriving DecidableEq, Repr

/-- `EpisodeObservation` from `fog_layer.py` (`has_audio` is embedded as
`hasSound`, a naming constraint of this development). -/
structure EpisodeObservation where
  timestamp : ℚ
  windowTitle : String
  appName : String
  features : ContextFeatures
  hasImage : Bool := false
  hasSound : Bool := false
deriving DecidableEq, Repr

/-- `Episode` from `fog_layer.py`.  The source id is the string
`f"ep_{counter}_{int(time)}"`; the counter is fresh per episode and
determines that string, so the embedding keeps the counter `idx` as the
identity. -/
structure Episode where
  idx : ℕ
  startTime : ℚ
  endTime : Option ℚ := none
  state : EpisodeState := .active
  primaryApp : Option String := none
  primaryActivity : Option String := none
  primaryPlatform : Option String := none
  observations : List EpisodeObservation := []
  totalDuration : ℚ := 0
  keyboardActive : Bool := false
  mouseActive : Bool := false
  isPassive : Bool := false
  isFocused : Bool := false
  selectedImageBytes : Option (List ℕ) := none
  selectedAudioBytes : Option (List ℕ) := none
deriving DecidableEq, Repr

/-- `Episode.observation_count`. -/
def Episode.obsCount (e : Episode) : ℕ := e.observations.length

/-- The mutable state of a `FogLayer` instance, together with its
construction-time parameters.  `episode_history` is a `deque(maxlen=50)`,
embedded as a list that drops its oldest element beyond 50 entries. -/
structure FogState where
  maxDuration : ℚ := 600
  minDuration : ℚ := 30
  contextThreshold : ℚ := 1 / 2
  current : Option Episode := none
  episodeHistory : List Episode := []
  pending : List Episode := []
  counter : ℕ := 0
deriving DecidableEq, Repr

/-- `FogLayer.__init__`. -/
def initFog (maxDur minDur threshold : ℚ) : FogState :=
  { maxDuration := maxDur, minDuration := minDur, contextThreshold := threshold }

/-- Append to a `deque(maxlen=cap)`: beyond `cap` elements the oldest is
evicted. -/
def capAppend (cap : ℕ) (l : List Episode) (e : Episode) : List Episode :=
  if cap < (l ++ [e]).length then (l ++ [e]).drop ((l ++ [e]).length - cap)
  else l ++ [e]

/-- Construction of the `EpisodeObservation` at the top of
`FogLayer.add_observation` (`has_image`/`has_audio` are `is not None`
tests in the source). -/
def mkObs (now : ℚ) (title appName : String) (f : ContextFeatures)
    (img aud : Option (List ℕ)) : EpisodeObservation :=
  { timestamp := now, windowTitle := title, appName := appName, features := f,
    hasImage := img.isSome, hasSound := aud.isSome }

/-- The episode mutation performed by `FogLayer._close_episode`. -/
def finalizeEpisode (ep : Episode) (now : ℚ) : Episode :=
  { ep with endTime := some now, state := .closed,
            totalDuration := now - ep.startTime }

/-- `FogLayer._close_episode`: finalize the current episode, push it to the
bounded history and the pending queue, clear the current slot. -/
def closeCurrent (s : FogState) (ep : Episode) (now : ℚ) : Episode × FogState :=
  let fin := finalizeEpisode ep now
  (fin, { s with episodeHistory := capAppend 50 s.episodeHistory fin,
                 pending := s.pending ++ [fin], current := none })

/-- `FogLayer._start_episode`: bump the counter and open a fresh episode
seeded from the first observation. -/
def startNew (s : FogState) (now : ℚ) (obs : EpisodeObservation)
    (f : ContextFeatures) : FogState :=
  { s with counter := s.counter + 1,
           current := some { idx := s.counter + 1, startTime := now,
                             primaryApp := some obs.appName,
                             primaryActivity := f.activityType,
                             primaryPlatform := f.title.platform } }

/-- `FogLayer._is_significant_change` on an open episode (the source returns
`True` outright when no episode is open; `add_observation` only reaches this
check with one open).  The Python comparisons `x != y` between an optional
and an optional string are the `Option` inequalities; the truthiness guards
on `app_name` and `platform` are explicit. -/
def sigChange (ep : Episode) (f : ContextFeatures) : Bool :=
  (optStrTruthy f.title.appName && f.title.appName != ep.primaryApp) ||
  (f.activityType != ep.primaryActivity) ||
  (optStrTruthy f.title.platform && f.title.platform != ep.primaryPlatform) ||
  (ep.isPassive && !f.isPassive)

/-- `FogLayer._update_episode_aggregates`: passive/focused are sticky-true,
and the primary activity is refined by any truthy non-"general" activity. -/
def updAggregates (ep : Episode) (f : ContextFeatures) : Episode :=
  { ep with
    isPassive := ep.isPassive || f.isPassive,
    isFocused := ep.isFocused || f.isFocused,
    primaryActivity :=
      if optStrTruthy f.activityType && f.activityType != some "general" then
        f.activityType
      else ep.primaryActivity }

/-- The first-write-wins media retention at the end of
`FogLayer.add_observation` (truthiness: empty bytes are not retained). -/
def retainMedia (ep : Episode) (img aud : Option (List ℕ)) : Episode :=
  { ep with
    selectedImageBytes :=
      if optBytesTruthy img && ep.selectedImageBytes.isNone then img
      else ep.selectedImageBytes,
    selectedAudioBytes :=
      if optBytesTruthy aud && ep.selectedAudioBytes.isNone then aud
      else ep.selectedAudioBytes }

/-- The unconditional tail of `FogLayer.add_observation`: append the
observation to the (now necessarily open) episode, update aggregates, retain
media samples. -/
def pushObs (s : FogState) (obs : EpisodeObservation) (f : ContextFeatures)
    (img aud : Option (List ℕ)) : FogState :=
  match s.current with
  | none => s
  | some ep =>
    { s with current := some (retainMedia
        (updAggregates { ep with observations := ep.observations ++ [obs] } f)
        img aud) }

/-- `FogLayer.add_observation`.  Returns the episode closed by this call (if
any) and the new state.  The close condition is the source guard sequence:
elapsed time beyond `max_duration`, or a significant change once
`min_duration` has elapsed. -/
def addObservation (s : FogState) (now : ℚ) (title appName : String)
    (f : ContextFeatures) (img aud : Option (List ℕ)) :
    Option Episode × FogState :=
  let obs := mkObs now title appName f img aud
  match s.current with
  | none => (none, pushObs (startNew s now obs f) obs f img aud)
  | some ep =>
    if s.maxDuration < now - ep.startTime ||
        (sigChange ep f && decide (s.minDuration < now - ep.startTime)) then
      let c := closeCurrent s ep now
      (some c.1, pushObs (startNew c.2 now obs f) obs f img aud)
    else
      (none, pushObs s obs f img aud)

/-- `FogLayer.force_close_current`. -/
def forceCloseCurrent (s : FogState) (now : ℚ) : Option Episode × FogState :=
  match s.current with
  | some ep => (some (closeCurrent s ep now).1, (closeCurrent s ep now).2)
  | none => (none, s)

/-- `FogLayer.get_pending_episodes`: copy the pending list, clear it, return
the copy. -/
def getPendingEpisodes (s : FogState) : List Episode × FogState :=
  (s.pending, { s with pending := [] })

/-! ### Fog layer: call traces -/

/-- One external call to the fog layer, as constrained by the claims: an
`add_observation` tick or a `force_close_current`.  The `now` component is
the `time.time()` read of that call. -/
inductive FogOp where
  | addObs (now : ℚ) (title appName : String) (f : ContextFeatures)
      (img aud : Option (List ℕ))
  | forceClose (now : ℚ)

/-- The state after one fog-layer call. -/
def applyOp (s : FogState) : FogOp → FogState
  | .addObs now t a f i d => (addObservation s now t a f i d).2
  | .forceClose now => (forceCloseCurrent s now).2

/-- The episode returned (as freshly closed) by one fog-layer call. -/
def applyOutput (s : FogState) : FogOp → Option Episode
  | .addObs now t a f i d => (addObservation s now t a f i d).1
  | .forceClose now => (forceCloseCurrent s now).1

/-- The state after a sequence of fog-layer calls. -/
def runOps (s : FogState) (ops : List FogOp) : FogState :=
  ops.foldl applyOp s

/-- All episodes recorded anywhere in the fog layer state: the open one, the
pending queue, the bounded history. -/
def episodesOf (s : FogState) : List Episode :=
  (match s.current with | some e => [e] | none => []) ++ s.pending ++ s.episodeHistory

/-- The number of recorded episodes in the `ACTIVE` state. -/
def activeCount (s : FogState) : ℕ :=
  (episodesOf s).countP (fun e => e.state == .active)

/-- Look an episode up by its identity in a container list. -/
def epLookup (l : List Episode) (n : ℕ) : Option Episode :=
  l.find? (fun e => e.idx == n)

/-- The state of episode number `n` as recorded by the fog layer: the open
episode first, then the pending queue and the history. -/
def epStateAt (s : FogState) (n : ℕ) : Option EpisodeState :=
  match s.current with
  | some e =>
    if e.idx = n then some e.state
    else (epLookup (s.pending ++ s.episodeHistory) n).map (fun x => x.state)
  | none => (epLookup (s.pending ++ s.episodeHistory) n).map (fun x => x.state)

/-- Position of an episode state along the lifecycle
`(absent) → ACTIVE → CLOSED → PROCESSED`. -/
def rankOf : Option EpisodeState → ℕ
  | none => 0
  | some .active => 1
  | some .closed => 2
  | some .processed => 3

/-- The inductive invariant of the fog layer: every queued or archived
episode is `CLOSED` and its identity is at most the counter; the history is
contained in the pending queue (no `get_pending_episodes` occurs in the
traces considered here); the open episode, when present, is `ACTIVE`,
carries the current counter, and is strictly newer than everything queued. -/
def FogInv (s : FogState) : Prop :=
  (∀ e ∈ s.pending, e.state = .closed ∧ e.idx ≤ s.counter) ∧
  (∀ e ∈ s.episodeHistory, e ∈ s.pending) ∧
  (∀ e, s.current = some e →
    e.state = .active ∧ e.idx = s.counter ∧ ∀ p ∈ s.pending, p.idx < s.counter)

/-! ### Knowledge gate: data model (`knowledge_gate.py`, `database.py`) -/

/-- `GateDecision` from `knowledge_gate.py` — the full enumeration, including
`KNOWN_USE_CACHE`. -/
inductive GateDecision where
  | knownUseCache
  | knownUseTemplate
  | knownSkip
  | unknownQueue
  | unknownUrgent
deriving DecidableEq, Repr

/-- A JSON object with scalar string values, as stored in the knowledge
bases (`dict` in the source). -/
def KBMap : Type := List (String × String)

instance : DecidableEq KBMap := by unfold KBMap; infer_instance

/-- `dict.get(key)` on a `KBMap`. -/
def kbGet (m : KBMap) (k : String) : Option String :=
  (m.find? (fun p => p.1 == k)).map (fun p => p.2)

/-- An entry of `core_kb.json`'s `apps` table: a list under `"patterns"` plus
the remaining scalar fields (`behavior`, `default_reaction`, …) kept in
`info`. -/
structure CoreApp where
  patterns : List String := []
  info : KBMap := []
deriving DecidableEq

/-- An entry of `core_kb.json`'s `contexts` table: a list under
`"title_contains"` plus the remaining scalar fields kept in `info`. -/
structure CoreCtx where
  titleContains : List String := []
  info : KBMap := []
deriving DecidableEq

/-- The Gemini knowledge base file.  A failed JSON load is caught inside
`database.load_gemini_kb` and yields `{}`, whose `.get(…, {})` reads are all
empty: a load failure is therefore represented by the empty value. -/
structure GeminiKB where
  learnedReactions : List (String × KBMap) := []
  contextMappings : List (String × KBMap) := []
deriving DecidableEq

/-- The Core knowledge base file (same load-failure convention as
`GeminiKB`; the tables not read by the gate are not modelled). -/
structure CoreKB where
  apps : List (String × CoreApp) := []
  contexts : List (String × CoreCtx) := []
  behaviors : List (String × KBMap) := []
deriving DecidableEq

/-- A snapshot of the external knowledge store, at the interface boundary of
`database.lookup_app_in_kb`: the outcome of the `context_embeddings` sqlite
query (which the source does not guard, so it may carry an error), plus the
two JSON knowledge bases. -/
structure KBSnapshot where
  userQuery : Except RinError (Option KBMap) := .ok none
  gemini : GeminiKB := {}
  core : CoreKB := {}

/-- The heterogeneous dict stored in a lookup result: a user-KB row or a
Gemini entry (`dict`), a Core KB app entry, or a Core KB context entry. -/
inductive KBInfo where
  | dict : KBMap → KBInfo
  | app : CoreApp → KBInfo
  | ctx : CoreCtx → KBInfo
deriving DecidableEq

/-- Python dict truthiness for a `KBInfo` (empty dict is falsy). -/
def KBInfo.truthy : KBInfo → Bool
  | .dict m => !m.isEmpty
  | .app a => !a.patterns.isEmpty || !a.info.isEmpty
  | .ctx c => !c.titleContains.isEmpty || !c.info.isEmpty

/-- `.get(key)` on a `KBInfo` for a scalar field (the list-valued fields of
Core KB entries are held separately and are never read through `.get` by the
gate). -/
def KBInfo.getS : KBInfo → String → Option String
  | .dict m, k => kbGet m k
  | .app a, k => kbGet a.info k
  | .ctx c, k => kbGet c.info k

/-- Truthiness of an optional dict. -/
def optInfoTruthy : Option KBInfo → Bool
  | none => false
  | some i => i.truthy

/-- The result dict of `database.lookup_app_in_kb`. -/
structure LookupResult where
  found : Bool := false
  source : Option String := none
  appInfo : Option KBInfo := none
  contextInfo : Option KBInfo := none
  reaction : Option String := none
deriving DecidableEq

/-- `database.lookup_app_in_kb`: the priority chain User KB → Gemini KB
(learned reactions, then context mappings) → Core KB (apps, then contexts).
An error escaping the unguarded sqlite query propagates; the JSON loads
never raise here (their failures are caught inside the loaders and yield
empty KBs, see `GeminiKB`). -/
def lookupAppInKB (snap : KBSnapshot) (appName windowTitle : String) :
    Except RinError LookupResult :=
  let appLower := lowerStr appName
  let titleLower := lowerStr windowTitle
  match snap.userQuery with
  | .error e => .error e
  | .ok (some row) =>
    .ok { found := true, source := some "user", contextInfo := some (.dict row) }
  | .ok none =>
    match snap.gemini.learnedReactions.find? (fun p =>
        !strStartsWith p.1 "_" &&
        (containsSub (lowerStr ((kbGet p.2 "context_signature").getD "")) appLower ||
         containsSub (lowerStr ((kbGet p.2 "context_signature").getD "")) titleLower)) with
    | some p =>
      .ok { found := true, source := some "gemini",
            reaction := kbGet p.2 "reaction_text", contextInfo := some (.dict p.2) }
    | none =>
      match snap.gemini.contextMappings.find? (fun p =>
          !strStartsWith p.1 "_" &&
          appLower == lowerStr ((kbGet p.2 "app_name").getD "")) with
      | some p =>
        .ok { found := true, source := some "gemini", contextInfo := some (.dict p.2) }
      | none =>
        match snap.core.apps.find? (fun p =>
            p.2.patterns.any (fun pat =>
              containsSub appLower (lowerStr pat) || containsSub (lowerStr pat) appLower)) with
        | some p =>
          .ok { found := true, source := some "core", appInfo := some (.app p.2),
                reaction := kbGet p.2.info "default_reaction" }
        | none =>
          match snap.core.contexts.find? (fun p =>
              p.2.titleContains.any (fun pat => containsSub titleLower (lowerStr pat))) with
          | some p =>
            .ok { found := true, source := some "core", contextInfo := some (.ctx p.2),
                  reaction := kbGet p.2.info "default_reaction" }
          | none => .ok {}

/-- `database.get_behavior_policy`. -/
def getBehaviorPolicy (core : CoreKB) (name : String) : KBMap :=
  ((core.behaviors.find? (fun p => p.1 == name)).map (fun p => p.2)).getD []

/-- `GateResult` from `knowledge_gate.py`. -/
structure GateResult where
  decision : GateDecision
  source : Option String := none
  reaction : Option String := none
  contextInfo : Option KBInfo := none
  behaviorPolicy : Option KBMap := none
  shouldCallGemini : Bool := false
  reason : String := ""
deriving DecidableEq

/-- Python `f"{x}"` for an optional string. -/
def showOpt : Option String → String
  | none => "None"
  | some s => s

/-- The result built by the `force_gemini` short-circuit of
`KnowledgeGate.check`. -/
def forcedResult : GateResult :=
  { decision := .unknownUrgent, shouldCallGemini := true,
    reason := "Forced Gemini call requested" }

/-- The result built by `KnowledgeGate.check` for an urgent unknown
context. -/
def unknownUrgentResult : GateResult :=
  { decision := .unknownUrgent, shouldCallGemini := true,
    reason := "Unknown context with high significance" }

/-- The result built by `KnowledgeGate.check` for a non-urgent unknown
context. -/
def unknownQueueResult : GateResult :=
  { decision := .unknownQueue, shouldCallGemini := false,
    reason := "Unknown context, queued for batch processing" }

/-- `KnowledgeGate._assess_urgency`: the three early-return guards of the
source in order (a dataclass instance is always truthy, so `if episode` is
`isSome`). -/
def assessUrgency (f : ContextFeatures) (ep? : Option Episode) : Bool :=
  if f.isFocused then true
  else if (match ep? with
           | some e => decide (e.obsCount ≤ 1)
           | none => false) then true
  else if f.activityType == some "coding" || f.activityType == some "writing" then
    true
  else false

/-- `KnowledgeGate.check`.  The statistics counters mutated by the source are
diagnostics that no decision depends on and are not modelled.  The resolver
call is not wrapped in any exception handler in the source, so a resolver
error propagates to the caller. -/
def check (snap : KBSnapshot) (windowTitle appName : String)
    (f : ContextFeatures) (ep? : Option Episode) (forceGemini : Bool) :
    Except RinError GateResult :=
  if forceGemini then .ok forcedResult
  else
    match lookupAppInKB snap appName windowTitle with
    | .error e => .error e
    | .ok kb =>
      if kb.found then
        let behaviorName : Option String :=
          if optInfoTruthy kb.appInfo then
            (kb.appInfo.getD (.dict [])).getS "behavior"
          else if optInfoTruthy kb.contextInfo then
            (kb.contextInfo.getD (.dict [])).getS "behavior"
          else none
        let policy : Option KBMap :=
          if optStrTruthy behaviorName then
            some (getBehaviorPolicy snap.core (behaviorName.getD ""))
          else none
        let ctxOut : Option KBInfo :=
          if optInfoTruthy kb.contextInfo then kb.contextInfo else kb.appInfo
        if optStrTruthy kb.reaction then
          .ok { decision := .knownUseTemplate, source := kb.source,
                reaction := kb.reaction, contextInfo := ctxOut,
                behaviorPolicy := policy,
                reason := "Found in " ++ showOpt kb.source ++ " KB with reaction" }
        else
          .ok { decision := .knownSkip, source := kb.source, contextInfo := ctxOut,
                behaviorPolicy := policy,
                reason := "Found in " ++ showOpt kb.source ++ " KB, no reaction needed" }
      else
        if assessUrgency f ep? then .ok unknownUrgentResult
        else .ok unknownQueueResult

/-! ### Specification-side definitions and concrete inputs -/

/-- Modelled from the spec (§4.3): the urgency condition as the design states
it — focused work, or a supplied episode with at most one observation, or a
`coding`/`writing` activity type.  Stated independently of the source
`assessUrgency` for comparison with it. -/
def urgentSpec (f : ContextFeatures) (ep? : Option Episode) : Bool :=
  f.isFocused ||
  (match ep? with
   | some e => decide (e.obsCount ≤ 1)
   | none => false) ||
  f.activityType == some "coding" || f.activityType == some "writing"

/-- A neutral parsed title used by the concrete traces. -/
def ptPlain : ParsedTitle := { rawTitle := "t" }

/-- A neutral feature vector used by the concrete traces. -/
def fPlain : ContextFeatures :=
  { title := ptPlain, audioFeats := {}, visual := {},
    activityType := some "general" }

/-- A feature vector that indicates focused work. -/
def fFocused : ContextFeatures :=
  { title := ptPlain, audioFeats := {}, visual := {},
    activityType := some "coding", isFocused := true }

/-- A fog layer state holding one episode opened at time 0: the default
`FogLayer()` after one `add_observation` tick. -/
def fogAfterOne : FogState :=
  runOps (initFog 600 30 (1 / 2)) [.addObs 0 "t" "a" fPlain none none]

/-- The single observation held by the episode of `fogAfterOne`. -/
def obs0 : EpisodeObservation := mkObs 0 "t" "a" fPlain none none

/-- The episode open in `fogAfterOne`. -/
def ep0 : Episode :=
  { idx := 1, startTime := 0, primaryApp := some "a",
    primaryActivity := some "general", observations := [obs0] }

/-- The episode closed when a tick arrives 605 seconds into the episode of
`fogAfterOne` (the `maxDuration = 600` close path). -/
def lateClosed : Episode :=
  { ep0 with endTime := some 605, state := .closed, totalDuration := 605 }

/-- The fog layer state after that 605-second tick. -/
def lateState : FogState := (addObservation fogAfterOne 605 "t" "a" fPlain none none).2

/-- The episode closed by a `force_close_current` issued on `fogAfterOne`. -/
def forcedClosed : Episode :=
  (applyOutput fogAfterOne (.forceClose 5)).getD { idx := 0, startTime := 0 }

/-- A fog layer state with one closed episode pending. -/
def fogWithPending : FogState := applyOp fogAfterOne (.forceClose 5)

/-- A knowledge snapshot on which every lookup misses: the user query
succeeds with no row and both knowledge base files are empty (or failed to
load, which the loaders turn into the same thing). -/
def emptySnap : KBSnapshot := {}

/-- A knowledge snapshot whose user-KB sqlite query raises. -/
def badSnap : KBSnapshot := { userQuery := .error .dbError }

/-! ### Claims about the knowledge gate -/

/-- C2.  With `force_gemini = true`, `KnowledgeGate.check` short-circuits to
`UNKNOWN_URGENT` with `should_call_gemini = true`.  The snapshot is
universally quantified — in particular the result is the same for a snapshot
whose very lookup would raise, so no knowledge-base lookup is performed. -/
theorem check_force_gemini_short_circuit (snap : KBSnapshot)
    (windowTitle appName : String) (f : ContextFeatures) (ep? : Option Episode) :
    check snap windowTitle appName f ep? true = .ok forcedResult := rfl

/-- C10.  Every successful result of `KnowledgeGate.check` carries one of the
four decisions `KNOWN_USE_TEMPLATE`, `KNOWN_SKIP`, `UNKNOWN_QUEUE`,
`UNKNOWN_URGENT`; the declared member `KNOWN_USE_CACHE` is returned by no
path. -/
theorem check_never_uses_cache (snap : KBSnapshot) (windowTitle appName : String)
    (f : ContextFeatures) (ep? : Option Episode) (forceGemini : Bool)
    (r : GateResult) (h : check snap windowTitle appName f ep? forceGemini = .ok r) :
    r.decision = .knownUseTemplate ∨ r.decision = .knownSkip ∨
    r.decision = .unknownQueue ∨ r.decision = .unknownUrgent := by
  unfold check at h
  split at h
  · cases h; right; right; right; rfl
  · split at h
    · cases h
    · rename_i kb _
      by_cases hf : kb.found = true
      · simp only [hf, if_true] at h
        split at h
        · cases h; left; rfl
        · cases h; right; left; rfl
      · simp only [Bool.not_eq_true] at hf
        simp only [hf, Bool.false_eq_true, if_false] at h
        split at h
        · cases h; right; right; right; rfl
        · cases h; right; right; left; rfl

/-- Witness for C10 at a concrete input (the forced path). -/
theorem check_never_uses_cache_witness :
    forcedResult.decision = .knownUseTemplate ∨ forcedResult.decision = .knownSkip ∨
    forcedResult.decision = .unknownQueue ∨ forcedResult.decision = .unknownUrgent :=
  check_never_uses_cache emptySnap "t" "a" fPlain none true forcedResult rfl

/-- The source urgency assessment coincides with the urgency condition as the
specification words it. -/
theorem assessUrgency_eq_urgentSpec (f : ContextFeatures) (ep? : Option Episode) :
    assessUrgency f ep? = urgentSpec f ep? := by
  unfold assessUrgency urgentSpec
  split
  · rename_i hfoc; simp [hfoc]
  · rename_i hfoc
    simp only [Bool.not_eq_true] at hfoc
    split
    · rename_i hobs; simp [hfoc, hobs]
    · rename_i hobs
      split
      · rename_i hact; simp [hfoc, hact, hobs]
      · rename_i hact
        simp only [Bool.not_eq_true] at hact
        cases ep? with
        | none => simp_all
        | some e => simp_all

/-- Shared core of C5 and C6: an unforced check whose resolver lookup reports
no match falls through to the urgency assessment, phrased with the
specification urgency condition. -/
theorem check_not_found_core (snap : KBSnapshot) (windowTitle appName : String)
    (f : ContextFeatures) (ep? : Option Episode) (kb : LookupResult)
    (hkb : lookupAppInKB snap appName windowTitle = .ok kb)
    (hnf : kb.found = false) :
    check snap windowTitle appName f ep? false =
      .ok (if urgentSpec f ep? then unknownUrgentResult else unknownQueueResult) := by
  unfold check
  rw [hkb]
  simp only [hnf, Bool.false_eq_true, if_false, Bool.not_eq_true,
    assessUrgency_eq_urgentSpec]
  split <;> simp_all

/-- C5.  When the gate is not forced and the resolver reports no match,
`check` returns the urgent result exactly when the specification urgency
condition holds (focused features, or a supplied episode with at most one
observation, or a `coding`/`writing` activity), and the queued result with
`should_call_gemini = false` otherwise. -/
theorem check_not_found_urgency (snap : KBSnapshot) (windowTitle appName : String)
    (f : ContextFeatures) (ep? : Option Episode) (kb : LookupResult)
    (hkb : lookupAppInKB snap appName windowTitle = .ok kb)
    (hnf : kb.found = false) :
    check snap windowTitle appName f ep? false =
      .ok (if urgentSpec f ep? then unknownUrgentResult else unknownQueueResult) :=
  check_not_found_core snap windowTitle appName f ep? kb hkb hnf

/-- Witness for C5: on the empty snapshot with focused features the gate
escalates. -/
theorem check_not_found_urgency_witness :
    check emptySnap "t" "a" fFocused none false =
      .ok (if urgentSpec fFocused none then unknownUrgentResult else unknownQueueResult) :=
  check_not_found_urgency emptySnap "t" "a" fFocused none {} rfl rfl

/-- C6, counterexample.  The claim says a failing resolver lookup is treated
like "not found" and never propagated; but `check` wraps the resolver call in
no handler, so a snapshot whose user-KB sqlite query raises makes `check`
itself raise rather than return a `GateResult`. -/
theorem check_propagates_resolver_error :
    check badSnap "t" "a" fPlain none false = .error .dbError := rfl

/-- C6, amended.  An *empty* knowledge base (equivalently, knowledge-base
files whose load failed, which the loaders turn into empty KBs) together with
a user query that finds no row is treated identically to "not found": `check`
falls through to the urgency assessment and returns a `GateResult`.  Only an
error raised by the user-KB database query itself propagates (see the
counterexample). -/
theorem check_empty_kb_falls_through (snap : KBSnapshot)
    (windowTitle appName : String) (f : ContextFeatures) (ep? : Option Episode)
    (hu : snap.userQuery = .ok none) (hg : snap.gemini = {}) (hc : snap.core = {}) :
    check snap windowTitle appName f ep? false =
      .ok (if urgentSpec f ep? then unknownUrgentResult else unknownQueueResult) := by
  have hkb : lookupAppInKB snap appName windowTitle = .ok {} := by
    unfold lookupAppInKB
    rw [hu, hg, hc]
    rfl
  exact check_not_found_core snap windowTitle appName f ep? {} hkb rfl

/-- Witness for the amended C6 at the concrete empty snapshot. -/
theorem check_empty_kb_falls_through_witness :
    check emptySnap "t" "a" fPlain none false =
      .ok (if urgentSpec fPlain none then unknownUrgentResult else unknownQueueResult) :=
  check_empty_kb_falls_through emptySnap "t" "a" fPlain none rfl rfl rfl

/-! ### Helper lemmas on concrete traces -/

/-- The 605-second tick on `fogAfterOne` closes `ep0` as `lateClosed` (the
elapsed duration 605 exceeds `maxDuration = 600`). -/
theorem addObs_at_605 :
    addObservation fogAfterOne 605 "t" "a" fPlain none none =
      (some lateClosed, lateState) := by
  rw [Prod.ext_iff]
  refine ⟨?_, rfl⟩
  unfold addObservation
  split
  · rename_i heq; exact absurd heq (by decide)
  · rename_i ep heq
    have hep : ep = ep0 := by
      have h2 : fogAfterOne.current = some ep0 := rfl
      injection (h2.symm.trans heq) with h
      exact h.symm
    subst hep
    split
    · show some (finalizeEpisode ep0 605) = some lateClosed
      have hfin : finalizeEpisode ep0 605 = lateClosed := by
        have hs : (605 : ℚ) - ep0.startTime = 605 := by
          have h0 : ep0.startTime = 0 := rfl
          rw [h0]; norm_num
        unfold finalizeEpisode
        rw [hs]
        rfl
      rw [hfin]
    · rename_i hcond
      refine absurd ?_ hcond
      simp only [Bool.or_eq_true, decide_eq_true_eq]
      left
      have hm : fogAfterOne.maxDuration = 600 := rfl
      have hs : ep0.startTime = 0 := rfl
      rw [hm, hs]
      norm_num

/-! ### Claims about the audio analyzer and the signal extractor -/

/-- C3, counterexample.  The constant input of 64 samples of amplitude 50 has
scaled RMS volume `500/32768 ≈ 0.0153` (so `volumeSq = 15625/67108864`):
strictly below the `is_silent` cutoff (0.02), yet above the `has_audio`
threshold (0.01).  The analyzer therefore reports `is_silent = true` together
with `has_audio = true`, refuting the claim that every input below the
silence threshold has `has_audio = false`. -/
theorem audio_silent_yet_has_sound :
    (audioAnalyze (fun _ => (false, false)) (some (List.replicate 64 50))).volumeSq <
        1 / 2500 ∧
    (audioAnalyze (fun _ => (false, false)) (some (List.replicate 64 50))).isSilent =
        true ∧
    (audioAnalyze (fun _ => (false, false)) (some (List.replicate 64 50))).hasSound =
        true := by
  have h : audioAnalyze (fun _ => (false, false)) (some (List.replicate 64 50)) =
      { hasSound := true, isSilent := true, volumeSq := 15625 / 67108864 } := by
    simp only [audioAnalyze, List.length_replicate, List.map_replicate,
      List.sum_replicate]
    norm_num [min_def]
  rw [h]
  refine ⟨by norm_num, rfl, rfl⟩

/-- C3, amended.  For every audio input whose scaled RMS volume is at most
the `has_audio` threshold (0.01, i.e. `volumeSq ≤ 1/10000`) — in particular
for absent, too-short or zero audio — the analyzer reports `is_silent = true`
and `has_audio = false`.  (Inputs with volume strictly between 0.01 and 0.02
are silent yet have `has_audio = true`, see the counterexample.) -/
theorem audio_below_has_audio_threshold (freqClassify : List ℤ → Bool × Bool)
    (samples? : Option (List ℤ))
    (h : (audioAnalyze freqClassify samples?).volumeSq ≤ 1 / 10000) :
    (audioAnalyze freqClassify samples?).isSilent = true ∧
    (audioAnalyze freqClassify samples?).hasSound = false := by
  cases samples? with
  | none => exact ⟨rfl, rfl⟩
  | some samples =>
    simp only [audioAnalyze] at h ⊢
    by_cases h1 : 2 * samples.length < 100
    · rw [if_pos h1]
      exact ⟨rfl, rfl⟩
    · by_cases h2 : samples.length = 0
      · rw [if_neg h1, if_pos h2]
        exact ⟨rfl, rfl⟩
      · rw [if_neg h1, if_neg h2] at h ⊢
        refine ⟨?_, ?_⟩
        · simp only [decide_eq_true_eq]
          exact lt_of_le_of_lt h (by norm_num)
        · simp only [decide_eq_false_iff_not, not_lt]
          exact h

/-- Witness for the amended C3: absent audio. -/
theorem audio_below_has_audio_threshold_witness :
    (audioAnalyze (fun _ => (false, false)) none).isSilent = true ∧
    (audioAnalyze (fun _ => (false, false)) none).hasSound = false :=
  audio_below_has_audio_threshold (fun _ => (false, false)) none
    (by simp only [audioAnalyze]; norm_num)

/-- C9.  On a fresh extractor state, the VS Code editing tick — title
`"main.py - myproj - Visual Studio Code"`, app `"Code.exe"`, keyboard input,
no audio, visual diff 0.1 — classifies as `coding`, focused and not passive.
The frequency classifier is universally quantified: it is never consulted on
this input. -/
theorem extract_vscode_editing_tick (freqClassify : List ℤ → Bool × Bool) :
    (extractFeatures freqClassify {} 0 "main.py - myproj - Visual Studio Code"
        "Code.exe" none (1 / 10) true false).map
      (fun p => (p.1.activityType, p.1.isFocused, p.1.isPassive)) =
    .ok (some "coding", true, false) := by
  have hd : decide ((1 : ℚ) / 10 < 2) = true := by norm_num
  simp only [extractFeatures, visualAnalyze, List.nil_append, List.length_cons,
    List.length_nil]
  norm_num [hd]
  rfl

/-! ### Claims about the fog layer: pending queue, close handoff -/

/-- C7.  `get_pending_episodes` atomically drains the pending queue: with at
least one episode pending, the first call returns exactly the pending list
(nothing lost, nothing duplicated) and a second call with no intervening
operation returns the empty list. -/
theorem getPending_drains_once (s : FogState) (h : s.pending ≠ []) :
    (getPendingEpisodes s).1 = s.pending ∧ (getPendingEpisodes s).1 ≠ [] ∧
    (getPendingEpisodes (getPendingEpisodes s).2).1 = [] :=
  ⟨rfl, h, rfl⟩

/-- Witness for C7 on a state holding one closed episode. -/
theorem getPending_drains_once_witness :
    (getPendingEpisodes fogWithPending).1 = fogWithPending.pending ∧
    (getPendingEpisodes fogWithPending).1 ≠ [] ∧
    (getPendingEpisodes (getPendingEpisodes fogWithPending).2).1 = [] :=
  getPending_drains_once fogWithPending (by decide)

/-- Shared core of C4 and C8: whenever `add_observation` closes an episode,
the closed episode keeps exactly the observation list it had before the call,
and the newly opened episode holds the triggering observation as its single
first observation. -/
theorem addObs_close_handoff (s : FogState) (now : ℚ)
    (title appName : String) (f : ContextFeatures) (img aud : Option (List ℕ))
    (fin : Episode) (s2 : FogState)
    (h : addObservation s now title appName f img aud = (some fin, s2)) :
    (∃ ep, s.current = some ep ∧ fin.observations = ep.observations) ∧
    (∃ ne, s2.current = some ne ∧
      ne.observations = [mkObs now title appName f img aud]) := by
  unfold addObservation at h
  split at h
  · simp only [Prod.mk.injEq] at h
    exact absurd h.1 (by simp)
  · rename_i ep heq
    split at h
    · simp only [Prod.mk.injEq, Option.some.injEq] at h
      obtain ⟨h1, h2⟩ := h
      refine ⟨⟨ep, heq, by rw [← h1]; rfl⟩, ?_⟩
      rw [← h2]
      exact ⟨_, rfl, rfl⟩
    · simp only [Prod.mk.injEq] at h
      exact absurd h.1 (by simp)

/-- C4.  Whenever `add_observation` closes an episode, the closed episode
keeps exactly the observation list it had before the call (the triggering
observation is not added to it), and the newly opened episode holds the
triggering observation as its single first observation. -/
theorem addObs_trigger_goes_to_new_episode (s : FogState) (now : ℚ)
    (title appName : String) (f : ContextFeatures) (img aud : Option (List ℕ))
    (fin : Episode) (s2 : FogState)
    (h : addObservation s now title appName f img aud = (some fin, s2)) :
    (∃ ep, s.current = some ep ∧ fin.observations = ep.observations) ∧
    (∃ ne, s2.current = some ne ∧
      ne.observations = [mkObs now title appName f img aud]) :=
  addObs_close_handoff s now title appName f img aud fin s2 h

/-- Witness for C4: the 605-second tick on a default fog layer closes the
old episode without the tick and opens a new one holding it. -/
theorem addObs_trigger_goes_to_new_episode_witness :
    (∃ ep, fogAfterOne.current = some ep ∧ lateClosed.observations = ep.observations) ∧
    (∃ ne, lateState.current = some ne ∧
      ne.observations = [mkObs 605 "t" "a" fPlain none none]) :=
  addObs_trigger_goes_to_new_episode fogAfterOne 605 "t" "a" fPlain none none
    lateClosed lateState addObs_at_605

/-! ### Claim C8: no episode is closed empty -/

/-- The open episode of a fog layer state always holds at least one
observation. -/
def CurInv (s : FogState) : Prop :=
  ∀ e, s.current = some e → e.observations ≠ []

/-- Neither aggregate refinement nor media retention touches the
observation list. -/
theorem retainMedia_observations (e : Episode) (i d : Option (List ℕ)) :
    (retainMedia e i d).observations = e.observations := rfl

theorem updAggregates_observations (e : Episode) (f : ContextFeatures) :
    (updAggregates e f).observations = e.observations := rfl

theorem curInv_init (maxDur minDur threshold : ℚ) :
    CurInv (initFog maxDur minDur threshold) := by
  intro e he
  simp [initFog] at he

theorem curInv_applyOp (s : FogState) (op : FogOp) (h : CurInv s) :
    CurInv (applyOp s op) := by
  cases op with
  | addObs now t a f i d =>
    show CurInv (addObservation s now t a f i d).2
    unfold addObservation
    split
    · intro e he
      simp only [pushObs, startNew, Option.some.injEq] at he
      rw [← he]
      simp [retainMedia_observations, updAggregates_observations]
    · split
      · intro e he
        simp only [pushObs, startNew, closeCurrent, Option.some.injEq] at he
        rw [← he]
        simp [retainMedia_observations, updAggregates_observations]
      · intro e he
        rename_i ep heq _
        simp only [pushObs, heq, Option.some.injEq] at he
        rw [← he]
        simp [retainMedia_observations, updAggregates_observations]
  | forceClose now =>
    show CurInv (forceCloseCurrent s now).2
    unfold forceCloseCurrent
    split
    · intro e he
      simp only [closeCurrent] at he
      simp at he
    · exact h

theorem curInv_runOps (maxDur minDur threshold : ℚ) (ops : List FogOp) :
    CurInv (runOps (initFog maxDur minDur threshold) ops) := by
  suffices hgen : ∀ s, CurInv s → CurInv (runOps s ops) from
    hgen _ (curInv_init maxDur minDur threshold)
  induction ops with
  | nil => intro s hs; exact hs
  | cons op rest ih =>
    intro s hs
    exact ih (applyOp s op) (curInv_applyOp s op hs)

/-- Any episode emitted as closed by one call carries the observations of the
episode that was open before the call. -/
theorem applyOutput_closes_current (s : FogState) (op : FogOp) (fin : Episode)
    (h : applyOutput s op = some fin) :
    ∃ ep, s.current = some ep ∧ fin.observations = ep.observations := by
  cases op with
  | addObs now t a f i d =>
    have h2 : addObservation s now t a f i d =
        (some fin, (addObservation s now t a f i d).2) := by
      rw [Prod.ext_iff]
      exact ⟨h, rfl⟩
    exact (addObs_close_handoff s now t a f i d fin _ h2).1
  | forceClose now =>
    have h2 : (forceCloseCurrent s now).1 = some fin := h
    cases hc : s.current with
    | some ep =>
      unfold forceCloseCurrent at h2
      rw [hc] at h2
      have h3 : some (closeCurrent s ep now).1 = some fin := h2
      injection h3 with h4
      exact ⟨ep, rfl, by rw [← h4]; rfl⟩
    | none =>
      unfold forceCloseCurrent at h2
      rw [hc] at h2
      have h3 : (none : Option Episode) = some fin := h2
      exact Option.noConfusion h3

/-- C8.  On every reachable fog layer state, an episode closed by
`add_observation` or by `force_close_current` holds at least one observation:
no episode is ever closed empty. -/
theorem closed_episode_nonempty (maxDur minDur threshold : ℚ)
    (ops : List FogOp) (op : FogOp) (fin : Episode)
    (h : applyOutput (runOps (initFog maxDur minDur threshold) ops) op = some fin) :
    1 ≤ fin.observations.length := by
  obtain ⟨ep, hep, hobs⟩ :=
    applyOutput_closes_current (runOps (initFog maxDur minDur threshold) ops) op fin h
  have hne : ep.observations ≠ [] :=
    curInv_runOps maxDur minDur threshold ops ep hep
  rw [hobs]
  exact List.length_pos.mpr hne

/-- Witness for C8: the forced close of the one-observation episode. -/
theorem closed_episode_nonempty_witness : 1 ≤ forcedClosed.observations.length :=
  closed_episode_nonempty 600 30 (1 / 2) [.addObs 0 "t" "a" fPlain none none]
    (.forceClose 5) forcedClosed rfl

/-! ### Claim C1: unique active episode, forward-only lifecycle -/

/-- Projections of the per-observation episode update: identity and state are
untouched. -/
theorem pushEp_state (ep : Episode) (obs : EpisodeObservation) (f : ContextFeatures)
    (i d : Option (List ℕ)) :
    (retainMedia (updAggregates { ep with observations := ep.observations ++ [obs] } f)
      i d).state = ep.state := rfl

theorem pushEp_idx (ep : Episode) (obs : EpisodeObservation) (f : ContextFeatures)
    (i d : Option (List ℕ)) :
    (retainMedia (updAggregates { ep with observations := ep.observations ++ [obs] } f)
      i d).idx = ep.idx := rfl

/-- Reduction of `pushObs` on a state with an open episode. -/
theorem pushObs_some (s : FogState) (ep : Episode) (obs : EpisodeObservation)
    (f : ContextFeatures) (i d : Option (List ℕ)) (hc : s.current = some ep) :
    pushObs s obs f i d =
      { s with current := some (retainMedia
          (updAggregates { ep with observations := ep.observations ++ [obs] } f)
          i d) } := by
  unfold pushObs
  rw [hc]

/-- Reduction of `applyOp` for an observation tick on an empty layer. -/
theorem applyOp_addObs_none (s : FogState) (now : ℚ) (t a : String)
    (f : ContextFeatures) (i d : Option (List ℕ)) (hc : s.current = none) :
    applyOp s (.addObs now t a f i d) =
      pushObs (startNew s now (mkObs now t a f i d) f) (mkObs now t a f i d) f i d := by
  unfold applyOp addObservation
  rw [hc]

/-- Reduction of `applyOp` for an observation tick that closes the open
episode. -/
theorem applyOp_addObs_close (s : FogState) (ep : Episode) (now : ℚ) (t a : String)
    (f : ContextFeatures) (i d : Option (List ℕ)) (hc : s.current = some ep)
    (hcond : (decide (s.maxDuration < now - ep.startTime) ||
      (sigChange ep f && decide (s.minDuration < now - ep.startTime))) = true) :
    applyOp s (.addObs now t a f i d) =
      pushObs (startNew (closeCurrent s ep now).2 now (mkObs now t a f i d) f)
        (mkObs now t a f i d) f i d := by
  have h0 : applyOp s (.addObs now t a f i d) = (addObservation s now t a f i d).2 := rfl
  rw [h0]
  unfold addObservation
  split
  · rename_i heq
    exact absurd (hc.symm.trans heq) (by simp)
  · rename_i ep2 heq
    have hep : ep2 = ep := by
      have hse := hc.symm.trans heq
      injection hse with hse2
      exact hse2.symm
    subst hep
    rw [hcond]
    rfl

/-- Reduction of `applyOp` for an observation tick that keeps the open
episode. -/
theorem applyOp_addObs_keep (s : FogState) (ep : Episode) (now : ℚ) (t a : String)
    (f : ContextFeatures) (i d : Option (List ℕ)) (hc : s.current = some ep)
    (hcond : (decide (s.maxDuration < now - ep.startTime) ||
      (sigChange ep f && decide (s.minDuration < now - ep.startTime))) = false) :
    applyOp s (.addObs now t a f i d) = pushObs s (mkObs now t a f i d) f i d := by
  have h0 : applyOp s (.addObs now t a f i d) = (addObservation s now t a f i d).2 := rfl
  rw [h0]
  unfold addObservation
  split
  · rename_i heq
    exact absurd (hc.symm.trans heq) (by simp)
  · rename_i ep2 heq
    have hep : ep2 = ep := by
      have hse := hc.symm.trans heq
      injection hse with hse2
      exact hse2.symm
    subst hep
    rw [hcond]
    rfl

/-- Reduction of `applyOp` for a forced close. -/
theorem applyOp_forceClose_some (s : FogState) (ep : Episode) (now : ℚ)
    (hc : s.current = some ep) :
    applyOp s (.forceClose now) = (closeCurrent s ep now).2 := by
  unfold applyOp forceCloseCurrent
  rw [hc]

theorem applyOp_forceClose_none (s : FogState) (now : ℚ) (hc : s.current = none) :
    applyOp s (.forceClose now) = s := by
  unfold applyOp forceCloseCurrent
  rw [hc]

/-- Reduction of `epStateAt`. -/
theorem epStateAt_some (s : FogState) (e : Episode) (n : ℕ) (hc : s.current = some e) :
    epStateAt s n =
      if e.idx = n then some e.state
      else (epLookup (s.pending ++ s.episodeHistory) n).map (fun x => x.state) := by
  unfold epStateAt
  rw [hc]

theorem epStateAt_none (s : FogState) (n : ℕ) (hc : s.current = none) :
    epStateAt s n =
      (epLookup (s.pending ++ s.episodeHistory) n).map (fun x => x.state) := by
  unfold epStateAt
  rw [hc]

/-- `epLookup` over a concatenation. -/
theorem epLookup_append (l1 l2 : List Episode) (n : ℕ) :
    epLookup (l1 ++ l2) n = (epLookup l1 n).or (epLookup l2 n) := by
  unfold epLookup
  exact List.find?_append

theorem epLookup_eq_none (l : List Episode) (n : ℕ) (h : ∀ e ∈ l, e.idx ≠ n) :
    epLookup l n = none := by
  unfold epLookup
  rw [List.find?_eq_none]
  intro e he
  simp [h e he]

/-- With the history contained in the pending queue, a lookup over both is a
lookup over the pending queue. -/
theorem epLookup_pair (p h : List Episode) (n : ℕ) (hsub : ∀ e ∈ h, e ∈ p) :
    epLookup (p ++ h) n = epLookup p n := by
  rw [epLookup_append]
  cases hpn : epLookup p n with
  | some e => rfl
  | none =>
    have hhn : epLookup h n = none := by
      unfold epLookup at hpn ⊢
      rw [List.find?_eq_none] at hpn ⊢
      intro e he
      exact hpn e (hsub e he)
    rw [hhn]
    rfl

/-- Membership after a bounded-deque append. -/
theorem capAppend_mem (cap : ℕ) (l : List Episode) (e x : Episode)
    (h : x ∈ capAppend cap l e) : x ∈ l ++ [e] := by
  unfold capAppend at h
  split at h
  · exact List.mem_of_mem_drop h
  · exact h

/-- The fog layer invariant holds initially. -/
theorem fogInv_init (maxDur minDur threshold : ℚ) :
    FogInv (initFog maxDur minDur threshold) := by
  refine ⟨?_, ?_, ?_⟩ <;> intro e he <;> simp [initFog] at he

/-- Closing the open episode preserves the invariant. -/
theorem fogInv_close (s : FogState) (ep : Episode) (now : ℚ)
    (hc : s.current = some ep) (hinv : FogInv s) :
    FogInv (closeCurrent s ep now).2 := by
  obtain ⟨hp, hh, hcur⟩ := hinv
  obtain ⟨hst, hidx, hlt⟩ := hcur ep hc
  refine ⟨?_, ?_, ?_⟩
  · intro e he
    have he2 : e ∈ s.pending ++ [finalizeEpisode ep now] := he
    rcases List.mem_append.mp he2 with h1 | h1
    · exact hp e h1
    · have hef : e = finalizeEpisode ep now := List.mem_singleton.mp h1
      subst hef
      exact ⟨rfl, by show ep.idx ≤ s.counter; omega⟩
  · intro e he
    have he2 : e ∈ capAppend 50 s.episodeHistory (finalizeEpisode ep now) := he
    rcases List.mem_append.mp (capAppend_mem 50 _ _ _ he2) with h1 | h1
    · exact List.mem_append.mpr (Or.inl (hh e h1))
    · exact List.mem_append.mpr (Or.inr h1)
  · intro e he
    exact Option.noConfusion he

/-- Appending the fresh observation, refining aggregates and retaining media
preserves the invariant facts of the open episode. -/
theorem fogInv_pushObs (t : FogState) (x : Episode) (obs : EpisodeObservation)
    (f : ContextFeatures) (i d : Option (List ℕ)) (hc : t.current = some x)
    (hx : x.state = .active ∧ x.idx = t.counter ∧ ∀ p ∈ t.pending, p.idx < t.counter)
    (hp : ∀ e ∈ t.pending, e.state = .closed ∧ e.idx ≤ t.counter)
    (hh : ∀ e ∈ t.episodeHistory, e ∈ t.pending) :
    FogInv (pushObs t obs f i d) := by
  rw [pushObs_some t x obs f i d hc]
  refine ⟨?_, ?_, ?_⟩
  · intro e he
    exact hp e he
  · intro e he
    exact hh e he
  · intro e he
    have he2 : some (retainMedia
        (updAggregates { x with observations := x.observations ++ [obs] } f) i d) =
        some e := he
    injection he2 with he3
    rw [← he3]
    refine ⟨?_, ?_, ?_⟩
    · rw [pushEp_state]; exact hx.1
    · rw [pushEp_idx]; exact hx.2.1
    · intro p hp2
      exact hx.2.2 p hp2

/-- Opening a fresh episode and pushing the observation into it preserves the
invariant. -/
theorem fogInv_startPush (s : FogState) (now : ℚ) (obs : EpisodeObservation)
    (f : ContextFeatures) (i d : Option (List ℕ))
    (hp : ∀ e ∈ s.pending, e.state = .closed ∧ e.idx ≤ s.counter)
    (hh : ∀ e ∈ s.episodeHistory, e ∈ s.pending) :
    FogInv (pushObs (startNew s now obs f) obs f i d) := by
  refine fogInv_pushObs (startNew s now obs f) _ obs f i d rfl ⟨rfl, rfl, ?_⟩ ?_ ?_
  · intro p hp2
    exact Nat.lt_succ_of_le (hp p hp2).2
  · intro e he
    obtain ⟨h1, h2⟩ := hp e he
    exact ⟨h1, Nat.le_succ_of_le h2⟩
  · intro e he
    exact hh e he

/-- One fog layer call preserves the invariant. -/
theorem fogInv_applyOp (s : FogState) (op : FogOp) (hinv : FogInv s) :
    FogInv (applyOp s op) := by
  cases op with
  | addObs now t a f i d =>
    cases hc : s.current with
    | none =>
      rw [applyOp_addObs_none s now t a f i d hc]
      exact fogInv_startPush s now (mkObs now t a f i d) f i d hinv.1 hinv.2.1
    | some ep =>
      cases hcond : (decide (s.maxDuration < now - ep.startTime) ||
          (sigChange ep f && decide (s.minDuration < now - ep.startTime))) with
      | true =>
        rw [applyOp_addObs_close s ep now t a f i d hc hcond]
        have hinv1 := fogInv_close s ep now hc hinv
        exact fogInv_startPush _ now (mkObs now t a f i d) f i d hinv1.1 hinv1.2.1
      | false =>
        rw [applyOp_addObs_keep s ep now t a f i d hc hcond]
        exact fogInv_pushObs s ep (mkObs now t a f i d) f i d hc
          (hinv.2.2 ep hc) hinv.1 hinv.2.1
  | forceClose now =>
    cases hc : s.current with
    | none =>
      rw [applyOp_forceClose_none s now hc]
      exact hinv
    | some ep =>
      rw [applyOp_forceClose_some s ep now hc]
      exact fogInv_close s ep now hc hinv

/-- The invariant holds on every reachable fog layer state. -/
theorem fogInv_runOps (maxDur minDur threshold : ℚ) (ops : List FogOp) :
    FogInv (runOps (initFog maxDur minDur threshold) ops) := by
  suffices hgen : ∀ s, FogInv s → FogInv (runOps s ops) from
    hgen _ (fogInv_init maxDur minDur threshold)
  induction ops with
  | nil => intro s hs; exact hs
  | cons op rest ih =>
    intro s hs
    exact ih (applyOp s op) (fogInv_applyOp s op hs)

/-- Closing the open episode moves its recorded state forward
(`ACTIVE → CLOSED`) and leaves every other recorded state unchanged. -/
theorem rank_close (s : FogState) (ep : Episode) (now : ℚ) (n : ℕ)
    (hc : s.current = some ep) (hinv : FogInv s) :
    rankOf (epStateAt s n) ≤ rankOf (epStateAt (closeCurrent s ep now).2 n) := by
  obtain ⟨hp, hh, hcur⟩ := hinv
  obtain ⟨hst, hidx, hlt⟩ := hcur ep hc
  have hbefore := epStateAt_some s ep n hc
  have hafter : epStateAt (closeCurrent s ep now).2 n =
      (epLookup ((s.pending ++ [finalizeEpisode ep now]) ++
        capAppend 50 s.episodeHistory (finalizeEpisode ep now)) n).map
        (fun x => x.state) := rfl
  have hsub2 : ∀ e ∈ capAppend 50 s.episodeHistory (finalizeEpisode ep now),
      e ∈ s.pending ++ [finalizeEpisode ep now] := by
    intro e he
    rcases List.mem_append.mp (capAppend_mem 50 _ _ _ he) with h1 | h1
    · exact List.mem_append.mpr (Or.inl (hh e h1))
    · exact List.mem_append.mpr (Or.inr h1)
  rw [hbefore, hafter, epLookup_pair _ _ n hh, epLookup_pair _ _ n hsub2,
    epLookup_append]
  by_cases hn : ep.idx = n
  · rw [if_pos hn]
    have hPn : epLookup s.pending n = none := by
      apply epLookup_eq_none
      intro e he
      have := hlt e he
      omega
    have hfin : epLookup [finalizeEpisode ep now] n =
        some (finalizeEpisode ep now) := by
      unfold epLookup
      have hb : ((finalizeEpisode ep now).idx == n) = true := by
        have : (finalizeEpisode ep now).idx = n := hn
        simp [this]
      simp [List.find?, hb]
    rw [hPn, hfin, hst]
    show (1 : ℕ) ≤ 2
    omega
  · rw [if_neg hn]
    cases hPn : epLookup s.pending n with
    | some e => exact Nat.le_refl _
    | none => exact Nat.zero_le _

/-- Opening a fresh episode records it as `ACTIVE` (it was previously
unrecorded) and leaves every other recorded state unchanged. -/
theorem rank_startPush (s : FogState) (now : ℚ) (obs : EpisodeObservation)
    (f : ContextFeatures) (i d : Option (List ℕ)) (n : ℕ)
    (hc : s.current = none)
    (hple : ∀ p ∈ s.pending, p.idx ≤ s.counter)
    (hh : ∀ e ∈ s.episodeHistory, e ∈ s.pending) :
    rankOf (epStateAt s n) ≤
    rankOf (epStateAt (pushObs (startNew s now obs f) obs f i d) n) := by
  have hbefore := epStateAt_none s n hc
  have hafter : epStateAt (pushObs (startNew s now obs f) obs f i d) n =
      if s.counter + 1 = n then some EpisodeState.active
      else (epLookup (s.pending ++ s.episodeHistory) n).map (fun x => x.state) := rfl
  rw [hbefore, hafter, epLookup_pair _ _ n hh]
  by_cases hn : s.counter + 1 = n
  · rw [if_pos hn]
    have hPn : epLookup s.pending n = none := by
      apply epLookup_eq_none
      intro e he
      have := hple e he
      omega
    rw [hPn]
    exact Nat.zero_le _
  · rw [if_neg hn]

/-- A tick that keeps the open episode does not change any recorded state. -/
theorem rank_keep (s : FogState) (ep : Episode) (obs : EpisodeObservation)
    (f : ContextFeatures) (i d : Option (List ℕ)) (n : ℕ)
    (hc : s.current = some ep) :
    epStateAt (pushObs s obs f i d) n = epStateAt s n := by
  rw [pushObs_some s ep obs f i d hc, epStateAt_some s ep n hc]
  rfl

/-- Core of C1: across any single fog layer call, the recorded lifecycle
position of every episode is monotone. -/
theorem rank_mono (s : FogState) (op : FogOp) (n : ℕ) (hinv : FogInv s) :
    rankOf (epStateAt s n) ≤ rankOf (epStateAt (applyOp s op) n) := by
  cases op with
  | addObs now t a f i d =>
    cases hc : s.current with
    | none =>
      rw [applyOp_addObs_none s now t a f i d hc]
      exact rank_startPush s now (mkObs now t a f i d) f i d n hc
        (fun p hp2 => (hinv.1 p hp2).2) hinv.2.1
    | some ep =>
      cases hcond : (decide (s.maxDuration < now - ep.startTime) ||
          (sigChange ep f && decide (s.minDuration < now - ep.startTime))) with
      | true =>
        rw [applyOp_addObs_close s ep now t a f i d hc hcond]
        have hinv1 := fogInv_close s ep now hc hinv
        exact le_trans (rank_close s ep now n hc hinv)
          (rank_startPush (closeCurrent s ep now).2 now (mkObs now t a f i d) f i d n
            rfl (fun p hp2 => (hinv1.1 p hp2).2) hinv1.2.1)
      | false =>
        rw [applyOp_addObs_keep s ep now t a f i d hc hcond,
          rank_keep s ep (mkObs now t a f i d) f i d n hc]
  | forceClose now =>
    cases hc : s.current with
    | none =>
      rw [applyOp_forceClose_none s now hc]
    | some ep =>
      rw [applyOp_forceClose_some s ep now hc]
      exact rank_close s ep now n hc hinv

/-- With the invariant, at most one recorded episode is `ACTIVE`. -/
theorem activeCount_le_one (s : FogState) (hinv : FogInv s) : activeCount s ≤ 1 := by
  obtain ⟨hp, hh, hcur⟩ := hinv
  unfold activeCount episodesOf
  have hPz : s.pending.countP (fun e => e.state == EpisodeState.active) = 0 := by
    rw [List.countP_eq_zero]
    intro e he
    simp [(hp e he).1]
  have hHz : s.episodeHistory.countP (fun e => e.state == EpisodeState.active) = 0 := by
    rw [List.countP_eq_zero]
    intro e he
    simp [(hp e (hh e he)).1]
  cases hc : s.current with
  | none =>
    simp [List.countP_append, hPz, hHz]
  | some e =>
    simp only [List.countP_append, hPz, hHz, Nat.add_zero]
    simpa using List.countP_le_length (p := fun e => e.state == EpisodeState.active)
      (l := [e])

/-- C1.  Across every sequence of `add_observation` and `force_close_current`
calls on a freshly constructed fog layer: (a) at most one recorded episode is
in the `ACTIVE` state, and (b) one further call can only move the recorded
lifecycle position of any episode forward along
`(absent) → ACTIVE → CLOSED → PROCESSED` — so `ACTIVE → CLOSED` happens at
most once per episode and no transition is ever reversed. -/
theorem fog_single_active_forward (maxDur minDur threshold : ℚ) (ops : List FogOp) :
    activeCount (runOps (initFog maxDur minDur threshold) ops) ≤ 1 ∧
    ∀ (op : FogOp) (n : ℕ),
      rankOf (epStateAt (runOps (initFog maxDur minDur threshold) ops) n) ≤
      rankOf (epStateAt (applyOp (runOps (initFog maxDur minDur threshold) ops) op) n) :=
  ⟨activeCount_le_one _ (fogInv_runOps maxDur minDur threshold ops),
   fun op n => rank_mono _ op n (fogInv_runOps maxDur minDur threshold ops)⟩
